import Mathlib

/-!
Verification of the health-checkup report formatter and analyzer
(`healthcheckapp.py`).  The Python string-processing routines
(`format_analysis_for_html`, `_create_section_html`,
`_format_content_to_html`, `_highlight_medical_values`) and the
validation logic of `analyze_health_report` are shallowly embedded as
executable Lean functions over `String` / `List Char`.  Python regular
expressions are hand-compiled into deterministic matchers following the
semantics of the `re` module (leftmost, non-overlapping scan; greedy
quantifiers with backtracking; `\b` word boundaries; `IGNORECASE` for
the medical-term pass).  The single outbound HTTP call of
`analyze_health_report` is modelled by passing the hypothetical response
as an argument; the pre-request validation is captured by the `ApiStep`
outcome type, whose `callApi` constructor is the only one that carries a
constructed prompt and corresponds to a network request being issued.
-/

namespace HealthCheck

/-! ## Character-level utilities (Python string semantics) -/

/-- Python whitespace characters for `str.strip`, `str.split` and `\s`
(ASCII fragment, which covers the texts handled here). -/
def isPyWs (c : Char) : Bool :=
  c = ' ' || c = '\t' || c = '\n' || c = '\r' || c = '\x0b' || c = '\x0c'

/-- Word characters for the regex `\b` boundary (`[A-Za-z0-9_]`,
ASCII fragment of Python's default Unicode word class). -/
def isWordChar (c : Char) : Bool :=
  c.isAlphanum || c = '_'

/-- Word-ness of an optional character; the edges of the string count as
non-word positions for `\b`. -/
def isWordOpt : Option Char → Bool
  | none => false
  | some c => isWordChar c

/-- Regex `\b`: a word boundary lies between two positions of different
word-ness. -/
def isBoundary (a b : Option Char) : Bool :=
  isWordOpt a != isWordOpt b

/-- Case-insensitive literal prefix match: pattern character `p`
(an upper-case letter in all uses) matches `c` when `c.toUpper = p`. -/
def ciStarts : List Char → List Char → Bool
  | [], _ => true
  | _ :: _, [] => false
  | p :: ps, c :: cs => (c.toUpper == p) && ciStarts ps cs

/-- Number of leading characters satisfying `p`. -/
def leadCount (p : Char → Bool) : List Char → Nat
  | [] => 0
  | c :: cs => if p c then leadCount p cs + 1 else 0

/-- Python `needle in haystack` (substring containment). -/
def listContains (n : List Char) : List Char → Bool
  | [] => n.isEmpty
  | c :: cs => n.isPrefixOf (c :: cs) || listContains n cs

/-- String-level substring containment, Python `needle in haystack`. -/
def containsSub (needle hay : String) : Bool :=
  listContains needle.toList hay.toList

/-- Python `str.count` (non-overlapping occurrences, left to right).
The scan consumes at least one character per step, so running it with
`fuel = l.length` is exact; the fuel makes the recursion structural. -/
def countSubFuel (n : List Char) : Nat → List Char → Nat
  | 0, _ => 0
  | _ + 1, [] => 0
  | fuel + 1, c :: cs =>
    if n ≠ [] ∧ n.isPrefixOf (c :: cs) then
      countSubFuel n fuel (cs.drop (n.length - 1)) + 1
    else
      countSubFuel n fuel cs

/-- Python `str.count` (non-overlapping occurrences, left to right). -/
def countSub (n l : List Char) : Nat :=
  countSubFuel n l.length l

/-- Python `str.strip()` on a character list. -/
def pyStripL (l : List Char) : List Char :=
  ((l.dropWhile isPyWs).reverse.dropWhile isPyWs).reverse

/-- Python `str.strip()`. -/
def pyStrip (s : String) : String :=
  String.mk (pyStripL s.toList)

/-- Python `str.upper()` (ASCII fragment). -/
def upperS (s : String) : String :=
  String.mk (s.toList.map Char.toUpper)

/-- Python `str.lower()` (ASCII fragment). -/
def lowerS (s : String) : String :=
  String.mk (s.toList.map Char.toLower)

/-- Python `str.startswith(p)`. -/
def startsWithS (p s : String) : Bool :=
  p.toList.isPrefixOf s.toList

/-- Python `str.isupper()`: at least one cased character and no
lower-case cased character (ASCII: cased = alphabetic). -/
def pyIsUpper (s : String) : Bool :=
  let cased := s.toList.filter Char.isAlpha
  !cased.isEmpty && cased.all Char.isUpper

/-- Python `str.endswith(':')`. -/
def endsColon (s : String) : Bool :=
  s.toList.getLast? == some ':'

/-- Python `str.title()`: a cased character is upper-cased when the
previous character is not cased, lower-cased otherwise. -/
def pyTitleAux : Bool → List Char → List Char
  | _, [] => []
  | prevAlpha, c :: cs =>
    (if c.isAlpha then (if prevAlpha then c.toLower else c.toUpper) else c)
      :: pyTitleAux c.isAlpha cs

/-- Python `str.title()`. -/
def pyTitle (s : String) : String :=
  String.mk (pyTitleAux false s.toList)

/-- Python `str.capitalize()`: first character upper, rest lower. -/
def capitalizeFirst (s : String) : String :=
  match s.toList with
  | [] => ""
  | c :: cs => String.mk (c.toUpper :: cs.map Char.toLower)

/-- Python `str.split('\n')` on a character list. -/
def splitNl : List Char → List (List Char)
  | [] => [[]]
  | '\n' :: cs => [] :: splitNl cs
  | c :: cs =>
    match splitNl cs with
    | h :: t => (c :: h) :: t
    | [] => [[c]]

/-- Python `str.split('\n')`. -/
def splitNlS (s : String) : List String :=
  (splitNl s.toList).map String.mk

/-- Python `str.split(sep)` for a non-empty separator, non-overlapping
left-to-right (structural via fuel, exact when `fuel = l.length`). -/
def splitOnSubFuel (sep : List Char) : Nat → List Char → List (List Char)
  | 0, l => [l]
  | _ + 1, [] => [[]]
  | fuel + 1, c :: cs =>
    if sep ≠ [] ∧ sep.isPrefixOf (c :: cs) then
      [] :: splitOnSubFuel sep fuel (cs.drop (sep.length - 1))
    else
      match splitOnSubFuel sep fuel cs with
      | h :: t => (c :: h) :: t
      | [] => [[c]]

/-- Python `str.split(sep)` for a non-empty separator. -/
def splitOnSub (sep l : List Char) : List (List Char) :=
  splitOnSubFuel sep l.length l

/-- Python `str.split()` (split on whitespace runs, dropping empties);
`acc` holds the reversed current word. -/
def wordsAux (acc : List Char) : List Char → List (List Char)
  | [] => if acc = [] then [] else [acc.reverse]
  | c :: cs =>
    if isPyWs c then
      if acc = [] then wordsAux [] cs else acc.reverse :: wordsAux [] cs
    else
      wordsAux (c :: acc) cs

/-- Python `str.split()`. -/
def splitWords (s : String) : List String :=
  (wordsAux [] s.toList).map String.mk

/-- Python `str.replace('\n', '<br>')`. -/
def replaceNlBr : List Char → List Char
  | [] => []
  | '\n' :: cs => '<' :: 'b' :: 'r' :: '>' :: replaceNlBr cs
  | c :: cs => c :: replaceNlBr cs

/-! ## `_highlight_medical_values`

Hand-compiled matchers for the three `re.sub` passes of
`_highlight_medical_values` (source lines 1083-1102):
the numeric-value pattern
`(\d+(?:\.\d+)?(?:\s*[-EN DASH]\s*\d+(?:\.\d+)?)?(?:\s*(?:mg|g|kg|lb|cm|mm|%|bpm|mmHg|mg/dL|g/dL|mL|L|units?|IU)\b)?)`,
the case-insensitive whole-word medical-term pattern, and the
`\*\*(.*?)\*\*` bold pattern. -/

/-- Length consumed by the optional fraction `(?:\.\d+)?` at the head of
`cs` (0 when it does not match). -/
def fracLen (cs : List Char) : Nat :=
  match cs with
  | '.' :: rest =>
    let d := leadCount Char.isDigit rest
    if d = 0 then 0 else d + 1
  | _ => 0

/-- Length consumed by the optional range tail
`(?:\s*[-EN DASH]\s*\d+(?:\.\d+)?)?` at the head of `cs`.  The `\s*`
parts are deterministic because neither a dash nor a digit is a
whitespace character. -/
def rangeLen (cs : List Char) : Nat :=
  let w := leadCount isPyWs cs
  match cs.drop w with
  | c :: rest =>
    if c = '-' || c = '–' then
      let w2 := leadCount isPyWs rest
      let d := leadCount Char.isDigit (rest.drop w2)
      if d = 0 then 0 else w + 1 + w2 + d + fracLen (rest.drop (w2 + d))
    else 0
  | [] => 0

/-- The unit alternation of the value pattern, in the source's order,
with `units?` expanded into its greedy order `units`, `unit`. -/
def unitAlts : List String :=
  ["mg", "g", "kg", "lb", "cm", "mm", "%", "bpm", "mmHg", "mg/dL",
   "g/dL", "mL", "L", "units", "unit", "IU"]

/-- Length consumed by the optional unit tail
`(?:\s*(?:mg|...|IU)\b)?` at the head of `cs`: the first alternative
(in order) that is a literal prefix and is followed by a `\b` boundary
wins; otherwise the group matches nothing. -/
def unitLen (cs : List Char) : Nat :=
  let w := leadCount isPyWs cs
  let rest := cs.drop w
  match unitAlts.find? (fun u =>
      u.toList.isPrefixOf rest &&
      isBoundary ((rest.take u.toList.length).getLast?)
                 ((rest.drop u.toList.length).head?)) with
  | some u => w + u.toList.length
  | none => 0

/-- Length of the value-pattern match starting exactly at the head of
`cs`; 0 when there is no match (the pattern requires `\d+`). -/
def valueLen (cs : List Char) : Nat :=
  let d := leadCount Char.isDigit cs
  if d = 0 then 0
  else
    let f := fracLen (cs.drop d)
    let r := rangeLen (cs.drop (d + f))
    let u := unitLen (cs.drop (d + f + r))
    d + f + r + u

/-- Opening tag inserted around a matched numeric value. -/
def valueOpen : List Char := "<span class=\"medical-value\">".toList

/-- Closing tag inserted around a matched numeric value. -/
def valueClose : List Char := "</span>".toList

/-- The `re.sub` scan of the value pattern: leftmost, non-overlapping,
resuming after each match (structural via fuel, exact when
`fuel = l.length` since every match consumes at least one character). -/
def valueSubFuel : Nat → List Char → List Char
  | 0, l => l
  | _ + 1, [] => []
  | fuel + 1, c :: cs =>
    let n := valueLen (c :: cs)
    if n = 0 then c :: valueSubFuel fuel cs
    else valueOpen ++ (c :: cs).take n ++ valueClose ++ valueSubFuel fuel (cs.drop (n - 1))

/-- The `re.sub` scan of the value pattern. -/
def valueSubAux (l : List Char) : List Char :=
  valueSubFuel l.length l

/-- The medical-status words of `_highlight_medical_values`, in the
source's order. -/
def important_terms : List String :=
  ["HIGH", "LOW", "NORMAL", "ABNORMAL", "CRITICAL", "URGENT", "IMMEDIATE",
   "ELEVATED", "DECREASED", "BORDERLINE", "OPTIMAL", "GOOD", "POOR",
   "RECOMMENDED", "AVOID", "INCREASE", "DECREASE", "MAINTAIN", "MONITOR"]

/-- Replacement inserted for a matched medical term: constant text built
from the canonical term, independent of the matched slice's casing. -/
def termRep (term : String) : List Char :=
  ("<span class=\"medical-term " ++ lowerS term ++ "\">" ++ term ++ "</span>").toList

/-- One `re.sub(f'\bTERM\b', ..., flags=IGNORECASE)` pass: scan with the
previous character tracked for the leading boundary; a match requires a
case-insensitive literal match of `t` plus boundaries on both sides. -/
def termSubFuel (t rep : List Char) : Nat → Option Char → List Char → List Char
  | 0, _, l => l
  | _ + 1, _, [] => []
  | fuel + 1, prev, c :: cs =>
    if ciStarts t (c :: cs) && isBoundary prev (some c) &&
       isBoundary (((c :: cs).take t.length).getLast?) (((c :: cs).drop t.length).head?) then
      rep ++ termSubFuel t rep fuel (((c :: cs).take t.length).getLast?) (cs.drop (t.length - 1))
    else
      c :: termSubFuel t rep fuel (some c) cs

/-- One case-insensitive whole-word `re.sub` pass (structural via fuel,
exact when `fuel = l.length` since a match consumes at least one
character for the non-empty terms used here). -/
def termSubAux (t rep : List Char) (prev : Option Char) (l : List Char) : List Char :=
  termSubFuel t rep l.length prev l

/-- Index of the first closing `**` in `l` not preceded by a newline
(`.` in `.*?` does not cross `\n`). -/
def findClose : List Char → Option Nat
  | '*' :: '*' :: _ => some 0
  | '\n' :: _ => none
  | _ :: cs => (findClose cs).map (· + 1)
  | [] => none

/-- The `re.sub(r'\*\*(.*?)\*\*', r'<strong>\1</strong>', ...)` pass
(structural via fuel, exact when `fuel = l.length` since every step
consumes at least one character). -/
def boldSubFuel : Nat → List Char → List Char
  | 0, l => l
  | fuel + 1, '*' :: '*' :: rest =>
    (match findClose rest with
     | some i =>
       "<strong>".toList ++ rest.take i ++ "</strong>".toList ++
         boldSubFuel fuel (rest.drop (i + 2))
     | none => '*' :: boldSubFuel fuel ('*' :: rest))
  | fuel + 1, c :: cs => c :: boldSubFuel fuel cs
  | _ + 1, [] => []

/-- The bold-emphasis `re.sub` pass. -/
def boldSub (l : List Char) : List Char :=
  boldSubFuel l.length l

/-- `_highlight_medical_values` (source lines 1083-1102): the value
pass, then one case-insensitive whole-word pass per medical term in
order, then the bold pass. -/
def highlight_medical_values (text : String) : String :=
  let t1 := valueSubAux text.toList
  let t2 := important_terms.foldl
    (fun acc term => termSubAux term.toList (termRep term) none acc) t1
  String.mk (boldSub t2)

/-! ## `_format_content_to_html` (source lines 1038-1081) -/

/-- Bullet test of `_format_content_to_html`:
`line.startswith('-') or line.startswith('•') or line.startswith('*')`. -/
def bulletStart (line : String) : Bool :=
  match line.toList with
  | c :: _ => c = '-' || c = '•' || c = '*'
  | [] => false

/-- Python `line[1:]`. -/
def strDrop1 (s : String) : String :=
  String.mk (s.toList.drop 1)

/-- The `<ul class='medical-list'>` wrapper around accumulated `<li>`
items (the source uses single quotes here). -/
def ulWrap (items : List String) : String :=
  "<ul class=\x27medical-list\x27>" ++ String.join items ++ "</ul>"

/-- The loop of `_format_content_to_html`, carrying `in_list`,
`current_list` and `html_content` exactly as the source does. -/
def formatContentAux : List String → Bool → List String → List String → List String
  | [], inList, curList, out =>
    if inList && !curList.isEmpty then out ++ [ulWrap curList] else out
  | l :: ls, inList, curList, out =>
    let line := pyStrip l
    if line = "" then formatContentAux ls inList curList out
    else if bulletStart line then
      let cur0 := if inList then curList else []
      let clean := highlight_medical_values (pyStrip (strDrop1 line))
      formatContentAux ls true (cur0 ++ ["<li>" ++ clean ++ "</li>"]) out
    else
      let out1 := if inList then out ++ [ulWrap curList] else out
      let f := highlight_medical_values line
      let tag :=
        if pyIsUpper line || endsColon line then
          "<h4 class=\x27sub-heading\x27>" ++ f ++ "</h4>"
        else
          "<p>" ++ f ++ "</p>"
      formatContentAux ls false [] (out1 ++ [tag])

/-- `_format_content_to_html`: joins the produced fragments with `''`. -/
def format_content_to_html (content_lines : List String) : String :=
  String.join (formatContentAux content_lines false [] [])

/-! ## Section configuration and `_create_section_html`
(source lines 925-1036) -/

/-- Display data attached to a known section keyword (the source's
`section_config` values; the `class` field is renamed `cssClass` since
`class` is a Lean keyword). -/
structure SectionStyle where
  icon : String
  cssClass : String
  title : String
deriving Repr, DecidableEq

/-- The `section_config` mapping, in the source's insertion order. -/
def section_config : List (String × SectionStyle) :=
  [("SUMMARY", ⟨"📋", "summary", "Executive Summary"⟩),
   ("KEY FINDINGS", ⟨"🔍", "findings", "Key Findings"⟩),
   ("HEALTH STATUS", ⟨"💓", "health-status", "Health Status Assessment"⟩),
   ("LIFESTYLE RECOMMENDATIONS", ⟨"🏃", "lifestyle", "Lifestyle Recommendations"⟩),
   ("DIETARY SUGGESTIONS", ⟨"🥗", "dietary", "Dietary Suggestions"⟩),
   ("EXERCISE RECOMMENDATIONS", ⟨"💪", "exercise", "Exercise Recommendations"⟩),
   ("FOLLOW-UP ACTIONS", ⟨"🏥", "follow-up", "Follow-up Actions"⟩),
   ("PREVENTIVE MEASURES", ⟨"🛡️", "preventive", "Preventive Measures"⟩)]

/-- The eight section keywords, in the dictionary's iteration order. -/
def sectionKeys : List String := section_config.map (·.1)

/-- `section_config.get(section_key, default)` of `_create_section_html`:
unknown keys fall back to the general style with a title-cased name. -/
def lookupStyle (key : String) : SectionStyle :=
  match section_config.find? (fun p => p.1 == key) with
  | some p => p.2
  | none => ⟨"📄", "general", pyTitle key⟩

/-- `_create_section_html`: the section wrapper f-string, transcribed
with the source's exact whitespace. -/
def create_section_html (section_key : String) (content_lines : List String) : String :=
  let config := lookupStyle section_key
  "\n        <div class=\"medical-section " ++ config.cssClass ++
  "\">\n            <div class=\"section-header\">\n                <h3><span class=\"section-icon\">" ++
  config.icon ++ "</span> " ++ config.title ++
  "</h3>\n            </div>\n            <div class=\"section-content\">\n                " ++
  format_content_to_html content_lines ++
  "\n            </div>\n        </div>\n        "

/-- The generic fallback block of `format_analysis_for_html` (source
lines 980-992), used when no section was detected, transcribed with the
source's exact whitespace. -/
def genericSectionHtml (lines : List String) : String :=
  "\n                <div class=\"medical-section general\">\n                    <div class=\"section-header\">\n                        <h3><span class=\"section-icon\">📊</span> Health Analysis</h3>\n                    </div>\n                    <div class=\"section-content\">\n                        " ++
  format_content_to_html lines ++
  "\n                    </div>\n                </div>\n                "

/-! ## Section detection and `format_analysis_for_html`
(source lines 925-994) -/

/-- Greedy backtracking for `\s*(.+)` after the numbered prefix: try the
largest whitespace skip `j` first, handing the remainder to `.+` (which
cannot cross or start at a newline); on failure give one whitespace
character back to `.+`. -/
def numBacktrack (rest : List Char) : Nat → Option (List Char)
  | 0 =>
    match (rest.drop 0).takeWhile (fun c => c != '\n') with
    | [] => none
    | t => some t
  | j + 1 =>
    match (rest.drop (j + 1)).takeWhile (fun c => c != '\n') with
    | [] => numBacktrack rest j
    | t => some t

/-- `re.match(r'^(\d+\.)\s*(.+)', line)`: the second capture group, or
`none` when the pattern does not match at the start of the line. -/
def numberedTitle (l : List Char) : Option (List Char) :=
  let d := leadCount Char.isDigit l
  if d = 0 then none
  else
    match l.drop d with
    | '.' :: rest => numBacktrack rest (leadCount isPyWs rest)
    | _ => none

/-- The keyword loop of `format_analysis_for_html` (source lines
950-955): the first key such that the key, or any single word of the
key, occurs in `line.upper()`. -/
def keywordFound (line : String) : Option String :=
  sectionKeys.find? (fun key =>
    containsSub key (upperS line) ||
    (splitWords key).any (fun w => containsSub w (upperS line)))

/-- Section detection for one (already stripped) line: the keyword loop
followed by the numbered-heading test, whose match overrides the
keyword result with `title.upper().strip()` (source lines 950-961). -/
def detectHeading (line : String) : Option String :=
  let kw := keywordFound line
  match numberedTitle line.toList with
  | some t => some (String.mk (pyStripL (t.map Char.toUpper)))
  | none => kw

/-- `if current_section and current_content:` — the section is emitted
only when one is open and its content buffer is non-empty. -/
def emitSection (cur : Option String) (acc : List String) : List (String × List String) :=
  match cur with
  | some k => if acc = [] then [] else [(k, acc)]
  | none => []

/-- The line scan of `format_analysis_for_html` (source lines 945-978):
blank lines are skipped, a detected heading emits the previous section
(when it has content) and opens a new one, and other lines accumulate
into the current content buffer. -/
def scanSections : List String → Option String → List String → List (String × List String)
  | [], cur, acc => emitSection cur acc
  | l :: ls, cur, acc =>
    let line := pyStrip l
    if line = "" then scanSections ls cur acc
    else
      match detectHeading line with
      | some k => emitSection cur acc ++ scanSections ls (some k) []
      | none => scanSections ls cur (acc ++ [line])

/-- `format_analysis_for_html` on the list of lines of the input: the
joined section blocks, or the single generic block when no section was
detected (the generic branch re-reads the full line list, which is
exactly `analysis_text.split('\n')` in the source). -/
def format_analysis_lines (lines : List String) : String :=
  let secs := scanSections lines none []
  if secs = [] then genericSectionHtml lines
  else String.join (secs.map (fun p => create_section_html p.1 p.2))

/-- `format_analysis_for_html` (source lines 925-994).  The `except`
fallback of the source is unreachable here: the body is pure string
processing and raises no exception. -/
def format_analysis_for_html (analysis_text : String) : String :=
  format_analysis_lines (splitNlS analysis_text)

/-! ## `analyze_health_report` (source lines 137-233)

The validation steps run before the HTTP request; `ApiStep.callApi` is
reached exactly when the request would be issued, and the three error
constructors correspond to the three early `st.error(...); return None`
paths.  The HTTP response is modelled as an input (`HttpResponse`); its
`content` field is `none` when the nested JSON field
`choices[0].message.content` cannot be extracted (the resulting
exception is caught by the source's `except`, which returns `None`).
`datetime.now()` is modelled by the `now` argument. -/

/-- The `language_prompts` dictionary of the analyzer. -/
def language_prompts : List (String × String) :=
  [("English", "Provide the analysis in clear, professional English."),
   ("Hindi", "कृपया विश्लेषण स्पष्ट और व्यावसायिक हिंदी में प्रदान करें।"),
   ("Hinglish", "Please provide the analysis in Hinglish (Hindi-English mix) that\x27s easy to understand for Indian users.")]

/-- `self.language_prompts.get(language, self.language_prompts["English"])`. -/
def language_prompt_for (language : String) : String :=
  match language_prompts.find? (fun p => p.1 == language) with
  | some p => p.2
  | none => "Provide the analysis in clear, professional English."

/-- The fixed analysis prompt (source lines 156-186), with
`language_instruction` and the extracted text interpolated. -/
def buildPrompt (language text : String) : String :=
  "You are a medical AI assistant specializing in health report analysis. \n\nPlease carefully analyze the following health checkup report text and provide:\n\n1. **SUMMARY**: A comprehensive summary of all test results across all pages\n2. **KEY FINDINGS**: Important findings and abnormal values (highlight which are outside normal ranges)\n3. **HEALTH STATUS**: Overall health assessment based on all available data\n4. **LIFESTYLE RECOMMENDATIONS**: Specific lifestyle changes needed based on the results\n5. **DIETARY SUGGESTIONS**: Nutritional recommendations tailored to the findings\n6. **EXERCISE RECOMMENDATIONS**: Physical activity suggestions appropriate for the health status\n7. **FOLLOW-UP ACTIONS**: Which tests to repeat, when to consult doctors, and urgency levels\n8. **PREVENTIVE MEASURES**: Steps to prevent future health issues\n\n" ++
  language_prompt_for language ++
  "\n\nPlease analyze the health report text below. Look for:\n- Lab test results and reference ranges\n- Vital signs and measurements\n- Any numerical values and their normal ranges\n- Doctor\x27s notes or recommendations\n- Test dates and patient information\n- Abnormal or concerning values\n\nProvide a detailed, structured analysis that\x27s easy to understand for a non-medical person.\nInclude specific actionable recommendations with clear priorities.\nIf any values are critical or require immediate attention, highlight them clearly.\n\nHealth Report Text:\n" ++
  text ++
  "\n\nPlease provide a thorough analysis based on the extracted text content."

/-- Outcome of the validation phase of `analyze_health_report`: one of
the three early error returns, or the decision to issue the HTTP
request with the constructed prompt. -/
inductive ApiStep where
  | errMissingKey
  | errMalformedKey
  | errEmptyInput
  | callApi (prompt : String)
deriving Repr, DecidableEq

/-- The validation phase of `analyze_health_report` (source lines
140-152), in the source's order: falsy key, then prefix/length check,
then blank extracted text; otherwise the request is issued with the
constructed prompt. -/
def analyze_request (api_key text language : String) : ApiStep :=
  if api_key = "" then .errMissingKey
  else if !startsWithS "sk-" api_key || api_key.length < 20 then .errMalformedKey
  else if pyStrip text = "" then .errEmptyInput
  else .callApi (buildPrompt language text)

/-- The modelled HTTP response of the chat-completions call: the status
code, and the nested `choices[0].message.content` field when the
response body has the expected shape. -/
structure HttpResponse where
  status : Nat
  content : Option String
deriving Repr, DecidableEq

/-- The result dictionary built on the success path of
`analyze_health_report` (source lines 223-229). -/
structure AnalysisResult where
  analysis : String
  timestamp : String
  language : String
  pages_analyzed : Nat
  extracted_text_length : Nat
deriving Repr, DecidableEq

/-- `text.count("--- Page") if "--- Page" in text else 1`
(source line 221). -/
def pagesAnalyzed (text : String) : Nat :=
  if containsSub "--- Page" text then countSub "--- Page".toList text.toList else 1

/-- `analyze_health_report` (source lines 137-233): `none` on every
validation failure, on a non-200 status and on a malformed response
body; the result record is built only on the full success path. -/
def analyze_health_report (api_key text language now : String)
    (resp : HttpResponse) : Option AnalysisResult :=
  match analyze_request api_key text language with
  | .callApi _ =>
    if resp.status ≠ 200 then none
    else
      match resp.content with
      | none => none
      | some analysis =>
        some { analysis := analysis, timestamp := now, language := language,
               pages_analyzed := pagesAnalyzed text,
               extracted_text_length := text.length }
  | _ => none

/-! ## Comparator definitions written from the claims' words

These definitions follow the natural-language claims (not the source);
each is compared against the corresponding source-derived definition in
the theorems below. -/

/-- Claim C2's opening condition as stated: the line contains one of the
eight full section-title keywords as a case-insensitive substring, or
matches the numbered-heading pattern. -/
def claimC2_opens (line : String) : Bool :=
  sectionKeys.any (fun key => containsSub key (upperS line)) ||
  (numberedTitle line.toList).isSome

/-- Amended C2 detection, written from the amended claim's words: a
numbered heading yields its title upper-cased and stripped; otherwise
the first keyword (in the fixed order) one of whose individual words
occurs case-insensitively in the line. -/
def specC2_detect (line : String) : Option String :=
  match numberedTitle line.toList with
  | some t => some (String.mk (pyStripL (t.map Char.toUpper)))
  | none =>
    sectionKeys.find? (fun key =>
      (splitWords key).any (fun w => containsSub w (upperS line)))

/-- Claim C3's generic section as stated: one generic block whose
content is the blank-line-separated paragraph split of the whole input,
each paragraph rendered as the source's exception fallback renders
paragraphs (`<p>` with inner newlines as `<br>`). -/
def claimC3_generic (t : String) : String :=
  let paras := (splitOnSub "\n\n".toList t.toList).filterMap (fun p =>
    if pyStripL p = [] then none
    else some ("<p>" ++ String.mk (replaceNlBr p) ++ "</p>"))
  "\n                <div class=\"medical-section general\">\n                    <div class=\"section-header\">\n                        <h3><span class=\"section-icon\">📊</span> Health Analysis</h3>\n                    </div>\n                    <div class=\"section-content\">\n                        " ++
  String.join paras ++
  "\n                    </div>\n                </div>\n                "

/-- Claim C4's expected output as stated: exactly the token `7.2%`
wrapped in a value span, `HIGH` wrapped in a term span of class `high`,
everything else unchanged. -/
def claimC4_expected : String :=
  "HbA1c: <span class=\"medical-value\">7.2%</span> (<span class=\"medical-term high\">HIGH</span>)"

/-- The actual output of `_highlight_medical_values` on
`"HbA1c: 7.2% (HIGH)"`: the lone digit of `HbA1c` is wrapped, and the
value span covers `7.2` without the percent sign (the `\b` after `%`
fails before a space). -/
def c4Actual : String :=
  "HbA<span class=\"medical-value\">1</span>c: <span class=\"medical-value\">7.2</span>% (<span class=\"medical-term high\">HIGH</span>)"

/-- The term-highlight span for a canonical medical term, as the source
builds it: class from `term.lower()`, content the canonical term. -/
def termSpan (t : String) : String :=
  "<span class=\"medical-term " ++ lowerS t ++ "\">" ++ t ++ "</span>"

/-- Input text containing the eight canonical section keywords, in
order, one per line, with no content lines. -/
def allKeywordsInput : String :=
  "SUMMARY\nKEY FINDINGS\nHEALTH STATUS\nLIFESTYLE RECOMMENDATIONS\nDIETARY SUGGESTIONS\nEXERCISE RECOMMENDATIONS\nFOLLOW-UP ACTIONS\nPREVENTIVE MEASURES"

/-! ## General lemmas about the embedding -/

theorem isPrefixOf_of_append {n m l : List Char} (h : (n ++ m).isPrefixOf l = true) :
    n.isPrefixOf l = true := by
  rw [List.isPrefixOf_iff_prefix] at *
  exact (List.prefix_append n m).trans h

theorem listContains_of_append {n m : List Char} :
    ∀ {h : List Char}, listContains (n ++ m) h = true → listContains n h = true := by
  intro h
  induction h with
  | nil =>
    intro hc
    simp only [listContains, List.isEmpty_iff, List.append_eq_nil] at hc ⊢
    exact hc.1
  | cons c cs ih =>
    intro hc
    simp only [listContains, Bool.or_eq_true] at hc ⊢
    rcases hc with hp | hrest
    · exact Or.inl (isPrefixOf_of_append hp)
    · exact Or.inr (ih hrest)

theorem containsSub_of_split (key w rest U : String)
    (hk : key.toList = w.toList ++ rest.toList)
    (hc : containsSub key U = true) : containsSub w U = true := by
  unfold containsSub at *
  rw [hk] at hc
  exact listContains_of_append hc

theorem find?_congr_on {α : Type} {p q : α → Bool} :
    ∀ {l : List α}, (∀ a ∈ l, p a = q a) → l.find? p = l.find? q := by
  intro l
  induction l with
  | nil => intro _; rfl
  | cons a t ih =>
    intro h
    have ha := h a (List.mem_cons_self a t)
    cases hqa : q a with
    | true => simp [List.find?, ha, hqa]
    | false =>
      simp only [List.find?, ha, hqa]
      exact ih (fun b hb => h b (List.mem_cons_of_mem a hb))

theorem keyword_word_of_full {key : String} (hkey : key ∈ sectionKeys) {U : String}
    (hc : containsSub key U = true) :
    (splitWords key).any (fun w => containsSub w U) = true := by
  have hsk : sectionKeys = ["SUMMARY", "KEY FINDINGS", "HEALTH STATUS",
      "LIFESTYLE RECOMMENDATIONS", "DIETARY SUGGESTIONS", "EXERCISE RECOMMENDATIONS",
      "FOLLOW-UP ACTIONS", "PREVENTIVE MEASURES"] := rfl
  rw [hsk] at hkey
  simp only [List.mem_cons, List.not_mem_nil, or_false] at hkey
  rcases hkey with rfl | rfl | rfl | rfl | rfl | rfl | rfl | rfl
  · exact List.any_eq_true.mpr ⟨"SUMMARY", by decide, hc⟩
  · exact List.any_eq_true.mpr ⟨"KEY", by decide,
      containsSub_of_split "KEY FINDINGS" "KEY" " FINDINGS" U (by rfl) hc⟩
  · exact List.any_eq_true.mpr ⟨"HEALTH", by decide,
      containsSub_of_split "HEALTH STATUS" "HEALTH" " STATUS" U (by rfl) hc⟩
  · exact List.any_eq_true.mpr ⟨"LIFESTYLE", by decide,
      containsSub_of_split "LIFESTYLE RECOMMENDATIONS" "LIFESTYLE" " RECOMMENDATIONS" U (by rfl) hc⟩
  · exact List.any_eq_true.mpr ⟨"DIETARY", by decide,
      containsSub_of_split "DIETARY SUGGESTIONS" "DIETARY" " SUGGESTIONS" U (by rfl) hc⟩
  · exact List.any_eq_true.mpr ⟨"EXERCISE", by decide,
      containsSub_of_split "EXERCISE RECOMMENDATIONS" "EXERCISE" " RECOMMENDATIONS" U (by rfl) hc⟩
  · exact List.any_eq_true.mpr ⟨"FOLLOW-UP", by decide,
      containsSub_of_split "FOLLOW-UP ACTIONS" "FOLLOW-UP" " ACTIONS" U (by rfl) hc⟩
  · exact List.any_eq_true.mpr ⟨"PREVENTIVE", by decide,
      containsSub_of_split "PREVENTIVE MEASURES" "PREVENTIVE" " MEASURES" U (by rfl) hc⟩

theorem keywordFound_eq_byWord (line : String) :
    keywordFound line =
      sectionKeys.find? (fun key =>
        (splitWords key).any (fun w => containsSub w (upperS line))) := by
  unfold keywordFound
  apply find?_congr_on
  intro key hkey
  cases hc : containsSub key (upperS line) with
  | false => simp
  | true => simp [keyword_word_of_full hkey hc]

theorem scanSections_blank {l : String} (hs : pyStrip l = "") {ls cur acc} :
    scanSections (l :: ls) cur acc = scanSections ls cur acc := by
  simp [scanSections, hs]

theorem scanSections_heading {l k : String} (hne : pyStrip l ≠ "")
    (hd : detectHeading (pyStrip l) = some k) {ls cur acc} :
    scanSections (l :: ls) cur acc =
      emitSection cur acc ++ scanSections ls (some k) [] := by
  simp [scanSections, hne, hd]

theorem scanSections_content {l : String} (hne : pyStrip l ≠ "")
    (hd : detectHeading (pyStrip l) = none) {ls cur acc} :
    scanSections (l :: ls) cur acc = scanSections ls cur (acc ++ [pyStrip l]) := by
  simp [scanSections, hne, hd]

theorem scanSections_none_acc (ls : List String) (acc1 acc2 : List String) :
    scanSections ls none acc1 = scanSections ls none acc2 := by
  induction ls generalizing acc1 acc2 with
  | nil => rfl
  | cons l ls ih =>
    by_cases hs : pyStrip l = ""
    · rw [scanSections_blank hs, scanSections_blank hs]
      exact ih _ _
    · cases hd : detectHeading (pyStrip l) with
      | some k =>
        rw [scanSections_heading hs hd, scanSections_heading hs hd]
        rfl
      | none =>
        rw [scanSections_content hs hd, scanSections_content hs hd]
        exact ih _ _

theorem scanSections_no_heading (ls : List String) (acc : List String)
    (h : ∀ l ∈ ls, pyStrip l = "" ∨ detectHeading (pyStrip l) = none) :
    scanSections ls none acc = [] := by
  induction ls generalizing acc with
  | nil => rfl
  | cons l ls ih =>
    have htail : ∀ x ∈ ls, pyStrip x = "" ∨ detectHeading (pyStrip x) = none :=
      fun x hx => h x (List.mem_cons_of_mem l hx)
    by_cases hs : pyStrip l = ""
    · rw [scanSections_blank hs]
      exact ih _ htail
    · rcases h l (List.mem_cons_self l ls) with hs2 | hd
      · exact absurd hs2 hs
      · rw [scanSections_content hs hd]
        exact ih _ htail

theorem scanSections_drop_pre (pre rest : List String) (acc : List String)
    (h : ∀ l ∈ pre, pyStrip l = "" ∨ detectHeading (pyStrip l) = none) :
    scanSections (pre ++ rest) none acc = scanSections rest none [] := by
  induction pre generalizing acc with
  | nil => simpa using scanSections_none_acc rest acc []
  | cons l pre ih =>
    have htail : ∀ x ∈ pre, pyStrip x = "" ∨ detectHeading (pyStrip x) = none :=
      fun x hx => h x (List.mem_cons_of_mem l hx)
    by_cases hs : pyStrip l = ""
    · rw [List.cons_append, scanSections_blank hs]
      exact ih _ htail
    · rcases h l (List.mem_cons_self l pre) with hs2 | hd
      · exact absurd hs2 hs
      · rw [List.cons_append, scanSections_content hs hd]
        exact ih _ htail

theorem isWordChar_of_toUpper_alpha (c : Char) (h : (Char.toUpper c).isAlpha = true) :
    isWordChar c = true := by
  unfold isWordChar
  by_cases h97 : c.toNat >= 97 ∧ c.toNat <= 122
  · have hl : c.isLower = true := by
      simp only [Char.isLower]
      have hx1 : decide (c.val >= 97) = true := decide_eq_true h97.1
      have hx2 : decide (c.val <= 122) = true := decide_eq_true h97.2
      rw [hx1, hx2]
      rfl
    simp [Char.isAlphanum, Char.isAlpha, hl]
  · unfold Char.toUpper at h
    rw [if_neg h97] at h
    simp [Char.isAlphanum, h]

theorem termSubFuel_fuel_irrel (t rep : List Char) :
    ∀ (fuel1 : Nat) {fuel2 : Nat} {prev : Option Char} {l : List Char},
      l.length <= fuel1 → l.length <= fuel2 →
      termSubFuel t rep fuel1 prev l = termSubFuel t rep fuel2 prev l := by
  intro fuel1
  induction fuel1 with
  | zero =>
    intro fuel2 prev l h1 h2
    have hl : l = [] := List.eq_nil_of_length_eq_zero (Nat.le_zero.mp h1)
    subst hl
    cases fuel2 <;> rfl
  | succ fuel1 ih =>
    intro fuel2 prev l h1 h2
    cases l with
    | nil => cases fuel2 <;> rfl
    | cons c cs =>
      cases fuel2 with
      | zero => exact absurd h2 (by simp)
      | succ fuel2 =>
        have h1x : cs.length <= fuel1 := by simp only [List.length_cons] at h1; omega
        have h2x : cs.length <= fuel2 := by simp only [List.length_cons] at h2; omega
        have hdlen : (cs.drop (t.length - 1)).length <= cs.length := by
          rw [List.length_drop]; omega
        simp only [termSubFuel]
        by_cases hg : (ciStarts t (c :: cs) && isBoundary prev (some c) &&
            isBoundary (((c :: cs).take t.length).getLast?)
              (((c :: cs).drop t.length).head?)) = true
        · rw [if_pos hg, if_pos hg]
          congr 1
          exact ih (le_trans hdlen h1x) (le_trans hdlen h2x)
        · rw [if_neg hg, if_neg hg]
          congr 1
          exact ih h1x h2x

theorem ciStarts_map_toUpper :
    ∀ (w post : List Char), ciStarts (w.map Char.toUpper) (w ++ post) = true := by
  intro w
  induction w with
  | nil => intro post; rfl
  | cons c cs ih =>
    intro post
    simp only [List.map_cons, List.cons_append, ciStarts]
    simp [ih post]

theorem important_terms_alpha :
    ∀ t ∈ important_terms, ∀ p ∈ t.toList, p.isAlpha = true := by decide

theorem important_terms_ne_nil :
    ∀ t ∈ important_terms, t.toList ≠ [] := by decide

/-! ## Claim theorems -/

set_option maxRecDepth 1000000

/-- C1, counterexample: the input text consisting of the eight canonical
section keywords in order, one per line, contains all eight keywords in
order, yet the formatter detects no section (every heading has an empty
content buffer, so `if current_section and current_content` never emits
one) and instead renders a single generic block — not eight section
blocks. -/
theorem C1_counterexample :
    scanSections (splitNlS allKeywordsInput) none [] = [] ∧
    countSub "<div class=\"medical-section".toList
      (format_analysis_for_html allKeywordsInput).toList = 1 := by
  exact ⟨by rfl, by rfl⟩

/-- C1, amended: when each of the eight canonical keyword heading lines
is followed by at least one non-blank, non-heading content line, the
formatter produces exactly eight section blocks in the order the
headings appear; however the sixth heading, `EXERCISE RECOMMENDATIONS`,
is keyed as a second `LIFESTYLE RECOMMENDATIONS` section, because the
keyword loop matches the first configured key sharing the word
`RECOMMENDATIONS`. -/
theorem C1_amended (c1 c2 c3 c4 c5 c6 c7 c8 : String)
    (h1 : pyStrip c1 ≠ "" ∧ detectHeading (pyStrip c1) = none)
    (h2 : pyStrip c2 ≠ "" ∧ detectHeading (pyStrip c2) = none)
    (h3 : pyStrip c3 ≠ "" ∧ detectHeading (pyStrip c3) = none)
    (h4 : pyStrip c4 ≠ "" ∧ detectHeading (pyStrip c4) = none)
    (h5 : pyStrip c5 ≠ "" ∧ detectHeading (pyStrip c5) = none)
    (h6 : pyStrip c6 ≠ "" ∧ detectHeading (pyStrip c6) = none)
    (h7 : pyStrip c7 ≠ "" ∧ detectHeading (pyStrip c7) = none)
    (h8 : pyStrip c8 ≠ "" ∧ detectHeading (pyStrip c8) = none) :
    scanSections ["SUMMARY", c1, "KEY FINDINGS", c2, "HEALTH STATUS", c3,
        "LIFESTYLE RECOMMENDATIONS", c4, "DIETARY SUGGESTIONS", c5,
        "EXERCISE RECOMMENDATIONS", c6, "FOLLOW-UP ACTIONS", c7,
        "PREVENTIVE MEASURES", c8] none [] =
      [("SUMMARY", [pyStrip c1]), ("KEY FINDINGS", [pyStrip c2]),
       ("HEALTH STATUS", [pyStrip c3]), ("LIFESTYLE RECOMMENDATIONS", [pyStrip c4]),
       ("DIETARY SUGGESTIONS", [pyStrip c5]), ("LIFESTYLE RECOMMENDATIONS", [pyStrip c6]),
       ("FOLLOW-UP ACTIONS", [pyStrip c7]), ("PREVENTIVE MEASURES", [pyStrip c8])] := by
  have d1 : detectHeading (pyStrip "SUMMARY") = some "SUMMARY" := by rfl
  have d2 : detectHeading (pyStrip "KEY FINDINGS") = some "KEY FINDINGS" := by rfl
  have d3 : detectHeading (pyStrip "HEALTH STATUS") = some "HEALTH STATUS" := by rfl
  have d4 : detectHeading (pyStrip "LIFESTYLE RECOMMENDATIONS") =
      some "LIFESTYLE RECOMMENDATIONS" := by rfl
  have d5 : detectHeading (pyStrip "DIETARY SUGGESTIONS") = some "DIETARY SUGGESTIONS" := by rfl
  have d6 : detectHeading (pyStrip "EXERCISE RECOMMENDATIONS") =
      some "LIFESTYLE RECOMMENDATIONS" := by rfl
  have d7 : detectHeading (pyStrip "FOLLOW-UP ACTIONS") = some "FOLLOW-UP ACTIONS" := by rfl
  have d8 : detectHeading (pyStrip "PREVENTIVE MEASURES") = some "PREVENTIVE MEASURES" := by rfl
  rw [scanSections_heading (by decide) d1, scanSections_content h1.1 h1.2,
      scanSections_heading (by decide) d2, scanSections_content h2.1 h2.2,
      scanSections_heading (by decide) d3, scanSections_content h3.1 h3.2,
      scanSections_heading (by decide) d4, scanSections_content h4.1 h4.2,
      scanSections_heading (by decide) d5, scanSections_content h5.1 h5.2,
      scanSections_heading (by decide) d6, scanSections_content h6.1 h6.2,
      scanSections_heading (by decide) d7, scanSections_content h7.1 h7.2,
      scanSections_heading (by decide) d8, scanSections_content h8.1 h8.2]
  simp [scanSections, emitSection]

/-- C1, witness: the amended statement instantiated with the content
lines `x1` .. `x8`. -/
theorem C1_amended_witness :
    scanSections ["SUMMARY", "x1", "KEY FINDINGS", "x2", "HEALTH STATUS", "x3",
        "LIFESTYLE RECOMMENDATIONS", "x4", "DIETARY SUGGESTIONS", "x5",
        "EXERCISE RECOMMENDATIONS", "x6", "FOLLOW-UP ACTIONS", "x7",
        "PREVENTIVE MEASURES", "x8"] none [] =
      [("SUMMARY", ["x1"]), ("KEY FINDINGS", ["x2"]),
       ("HEALTH STATUS", ["x3"]), ("LIFESTYLE RECOMMENDATIONS", ["x4"]),
       ("DIETARY SUGGESTIONS", ["x5"]), ("LIFESTYLE RECOMMENDATIONS", ["x6"]),
       ("FOLLOW-UP ACTIONS", ["x7"]), ("PREVENTIVE MEASURES", ["x8"])] :=
  (C1_amended "x1" "x2" "x3" "x4" "x5" "x6" "x7" "x8"
    ⟨by decide, by rfl⟩ ⟨by decide, by rfl⟩ ⟨by decide, by rfl⟩ ⟨by decide, by rfl⟩
    ⟨by decide, by rfl⟩ ⟨by decide, by rfl⟩ ⟨by decide, by rfl⟩ ⟨by decide, by rfl⟩).trans
    (by decide)

/-- C2, counterexample: the line `Take the key home` contains none of
the eight full section-title keywords as a case-insensitive substring
and does not match the numbered-heading pattern, so by the claim it
must not open a section; the code nevertheless opens a
`KEY FINDINGS` section, because the keyword loop also matches on any
single word of a keyword (here `KEY`). -/
theorem C2_counterexample :
    claimC2_opens "Take the key home" = false ∧
    detectHeading "Take the key home" = some "KEY FINDINGS" :=
  ⟨by rfl, by rfl⟩

/-- C2, amended: a line opens a new section if and only if it contains
some individual word of one of the eight keywords as a case-insensitive
substring, or matches the numbered-heading pattern; the new key is the
first keyword (in configuration order) with a matching word, and a
numbered-heading match overrides it with the title upper-cased and
stripped.  The full-keyword substring test of the source is redundant,
since a full-keyword occurrence contains its first word. -/
theorem C2_amended (line : String) : detectHeading line = specC2_detect line := by
  unfold detectHeading specC2_detect
  cases hn : numberedTitle line.toList with
  | some t => simp [hn]
  | none => simp [hn, keywordFound_eq_byWord line]

/-- C3, counterexample: the heading-free input `"a\nb"` has no blank
line, so by the claim its generic section holds one paragraph; the code
instead formats every newline-separated line on its own, producing two
`<p>` elements. -/
theorem C3_counterexample :
    format_analysis_for_html "a\nb" ≠ claimC3_generic "a\nb" ∧
    countSub "<p>".toList (format_analysis_for_html "a\nb").toList = 2 :=
  ⟨by decide, by rfl⟩

/-- C3, amended: for input text in which no line detects as a heading,
the formatter produces exactly one generic section whose content is the
per-line formatting (list items, sub-headings, paragraphs, with value
and term highlighting) of the newline split of the whole input — lines,
not blank-line-separated paragraphs. -/
theorem C3_amended (t : String)
    (h : ∀ l ∈ splitNlS t, pyStrip l = "" ∨ detectHeading (pyStrip l) = none) :
    format_analysis_for_html t = genericSectionHtml (splitNlS t) := by
  have hscan : scanSections (splitNlS t) none [] = [] :=
    scanSections_no_heading _ [] h
  unfold format_analysis_for_html format_analysis_lines
  rw [hscan]
  simp

/-- C3, witness: the amended statement at the heading-free input
`"a\nb"`. -/
theorem C3_amended_witness :
    format_analysis_for_html "a\nb" = genericSectionHtml (splitNlS "a\nb") :=
  C3_amended "a\nb" (by decide)

/-- C4, counterexample: on `"HbA1c: 7.2% (HIGH)"` the highlighter does
not wrap the token `7.2%`: the `\b` required after a `%` unit fails
before the following space, so only `7.2` is wrapped, and the digit `1`
inside `HbA1c` is additionally wrapped (the value pattern has no
leading boundary). -/
theorem C4_counterexample :
    highlight_medical_values "HbA1c: 7.2% (HIGH)" ≠ claimC4_expected := by
  decide

/-- C4, amended: on `"HbA1c: 7.2% (HIGH)"` the highlighter wraps `7.2`
(without the percent sign) and the lone digit `1` of `HbA1c` in value
spans, and wraps `HIGH` in a term span whose style class is `high`. -/
theorem C4_theorem :
    highlight_medical_values "HbA1c: 7.2% (HIGH)" = c4Actual := by
  rfl

/-- C5: the bullet line `- Reduce sodium to 1500 mg daily` yields
exactly one list item whose content wraps `1500 mg` in a value span and
keeps `Reduce sodium to` and `daily` unchanged; the same list item
appears in the full formatter output when the line sits inside an open
section. -/
theorem C5_theorem :
    format_content_to_html ["- Reduce sodium to 1500 mg daily"] =
      "<ul class=\x27medical-list\x27><li>Reduce sodium to <span class=\"medical-value\">1500 mg</span> daily</li></ul>" ∧
    containsSub "<li>Reduce sodium to <span class=\"medical-value\">1500 mg</span> daily</li>"
      (format_analysis_for_html "SUMMARY\n- Reduce sodium to 1500 mg daily") = true :=
  ⟨by rfl, by rfl⟩

/-- C6, counterexample: in `"preamble\nSUMMARY"` a section heading is
detected on the second line, yet the pre-heading line `preamble` is not
absent from the output: the lone detected section has no content, so no
section block is emitted and the generic fallback re-reads the whole
input, `preamble` included. -/
theorem C6_counterexample :
    detectHeading "SUMMARY" = some "SUMMARY" ∧
    containsSub "preamble" (format_analysis_for_html "preamble\nSUMMARY") = true :=
  ⟨by rfl, by rfl⟩

/-- C6, amended: content lines preceding the first detected heading
never reach any emitted section block: whenever at least one section
block is emitted, the output equals the output on the input with the
pre-heading lines deleted.  (When no block is emitted, the generic
fallback re-includes them.) -/
theorem C6_amended (pre rest : List String)
    (hpre : ∀ l ∈ pre, pyStrip l = "" ∨ detectHeading (pyStrip l) = none)
    (hrest : scanSections rest none [] ≠ []) :
    format_analysis_lines (pre ++ rest) = format_analysis_lines rest := by
  unfold format_analysis_lines
  rw [scanSections_drop_pre pre rest [] hpre]
  simp [hrest]

/-- C6, witness: the amended statement with pre-heading line
`preamble` and a section with content. -/
theorem C6_amended_witness :
    format_analysis_lines (["preamble"] ++ ["SUMMARY", "Overall fine"]) =
      format_analysis_lines ["SUMMARY", "Overall fine"] :=
  C6_amended ["preamble"] ["SUMMARY", "Overall fine"] (by decide) (by decide)

/-- C7, counterexample: the empty credential does not start with `sk-`,
yet the analyzer reports the missing-credential error (the `not
api_key` check fires first), not the malformed-credential error the
claim requires. -/
theorem C7_counterexample :
    startsWithS "sk-" "" = false ∧
    analyze_request "" "Report text" "English" = ApiStep.errMissingKey ∧
    ApiStep.errMissingKey ≠ ApiStep.errMalformedKey :=
  ⟨by rfl, by rfl, by decide⟩

/-- C7, amended: for every non-empty credential that does not start
with `sk-`, the analyzer reports the malformed-credential error and
returns `None` without reaching the HTTP request; the empty credential
instead reports the missing-credential error (also with no result and
no request). -/
theorem C7_amended (api_key text language now : String) (resp : HttpResponse)
    (hne : api_key ≠ "") (hpre : startsWithS "sk-" api_key = false) :
    analyze_request api_key text language = ApiStep.errMalformedKey ∧
    analyze_health_report api_key text language now resp = none := by
  have hreq : analyze_request api_key text language = ApiStep.errMalformedKey := by
    simp [analyze_request, hne, hpre]
  refine ⟨hreq, ?_⟩
  unfold analyze_health_report
  rw [hreq]

/-- C7, witness: the amended statement at the concrete malformed
credential `abc`. -/
theorem C7_amended_witness :
    analyze_request "abc" "Report text" "English" = ApiStep.errMalformedKey ∧
    analyze_health_report "abc" "Report text" "English" "2026-10-12 00:00:00"
      ⟨200, some "output"⟩ = none :=
  C7_amended "abc" "Report text" "English" "2026-10-12 00:00:00"
    ⟨200, some "output"⟩ (by decide) (by rfl)

/-- C8: with a credential that passes the prefix and length checks, a
blank or whitespace-only extracted text makes the analyzer report the
empty-input error and return `None`; the outcome is `errEmptyInput`,
not `callApi`, so no prompt is constructed and no request is issued. -/
theorem C8_theorem (api_key text language now : String) (resp : HttpResponse)
    (hpre : startsWithS "sk-" api_key = true) (hlen : 20 ≤ api_key.length)
    (htext : pyStrip text = "") :
    analyze_request api_key text language = ApiStep.errEmptyInput ∧
    analyze_health_report api_key text language now resp = none := by
  have hne : api_key ≠ "" := by
    intro he
    rw [he] at hpre
    exact absurd hpre (by decide)
  have hlt : ¬ api_key.length < 20 := Nat.not_lt.mpr hlen
  have hreq : analyze_request api_key text language = ApiStep.errEmptyInput := by
    simp [analyze_request, hne, hpre, hlt, htext]
  refine ⟨hreq, ?_⟩
  unfold analyze_health_report
  rw [hreq]

/-- C8, witness: a valid 20-character credential and a whitespace-only
extracted text. -/
theorem C8_witness :
    analyze_request "sk-12345678901234567" "   " "English" = ApiStep.errEmptyInput ∧
    analyze_health_report "sk-12345678901234567" "   " "English" "2026-10-12 00:00:00"
      ⟨200, some "output"⟩ = none :=
  C8_theorem "sk-12345678901234567" "   " "English" "2026-10-12 00:00:00"
    ⟨200, some "output"⟩ (by rfl) (by decide) (by rfl)

/-- C9: a result record is produced only from a non-blank extracted
text and a status-200 response whose body yields the nested content
field, and every field of the record is the computed one — analysis
from the response, timestamp from the clock, language as requested,
page count and text length from the extracted text; on every other
path the analyzer returns `None`. -/
theorem C9_theorem (api_key text language now : String) (resp : HttpResponse)
    (r : AnalysisResult)
    (h : analyze_health_report api_key text language now resp = some r) :
    pyStrip text ≠ "" ∧ resp.status = 200 ∧ resp.content = some r.analysis ∧
    r.timestamp = now ∧ r.language = language ∧
    r.pages_analyzed = pagesAnalyzed text ∧ r.extracted_text_length = text.length := by
  unfold analyze_health_report at h
  cases hreq : analyze_request api_key text language with
  | errMissingKey => rw [hreq] at h; exact absurd h (by simp)
  | errMalformedKey => rw [hreq] at h; exact absurd h (by simp)
  | errEmptyInput => rw [hreq] at h; exact absurd h (by simp)
  | callApi p =>
    rw [hreq] at h
    have htext : pyStrip text ≠ "" := by
      intro he
      unfold analyze_request at hreq
      by_cases hk1 : api_key = ""
      · rw [if_pos hk1] at hreq
        exact ApiStep.noConfusion hreq
      · rw [if_neg hk1] at hreq
        by_cases hk2 : (!startsWithS "sk-" api_key || decide (api_key.length < 20)) = true
        · rw [if_pos hk2] at hreq
          exact ApiStep.noConfusion hreq
        · rw [if_neg hk2] at hreq
          rw [if_pos he] at hreq
          exact ApiStep.noConfusion hreq
    by_cases hstat : resp.status = 200
    · rw [if_neg (fun hne2 => hne2 hstat)] at h
      cases hcont : resp.content with
      | none => rw [hcont] at h; exact absurd h (by simp)
      | some a =>
        rw [hcont] at h
        have hr := Option.some.inj h
        subst hr
        exact ⟨htext, hstat, rfl, rfl, rfl, rfl, rfl⟩
    · rw [if_pos hstat] at h
      exact absurd h (by simp)

/-- C9, witness: a full success path with a valid credential,
non-blank text and a 200 response. -/
theorem C9_witness :
    pyStrip "report" ≠ "" ∧
    (HttpResponse.mk 200 (some "analysis out")).status = 200 ∧
    (HttpResponse.mk 200 (some "analysis out")).content =
      some (AnalysisResult.mk "analysis out" "ts" "English" 1 6).analysis ∧
    (AnalysisResult.mk "analysis out" "ts" "English" 1 6).timestamp = "ts" ∧
    (AnalysisResult.mk "analysis out" "ts" "English" 1 6).language = "English" ∧
    (AnalysisResult.mk "analysis out" "ts" "English" 1 6).pages_analyzed =
      pagesAnalyzed "report" ∧
    (AnalysisResult.mk "analysis out" "ts" "English" 1 6).extracted_text_length =
      "report".length :=
  C9_theorem "sk-12345678901234567" "report" "English" "ts"
    ⟨200, some "analysis out"⟩ ⟨"analysis out", "ts", "English", 1, 6⟩ (by rfl)

/-- C10: the medical-term pass replaces a matched occurrence with the
constant canonical replacement, whatever the occurrence's casing.
First conjunct, universally: for every term of the fixed list, every
casing variant `w` of it (any `w` whose character-wise upper-casing is
the term), and every boundary-satisfying context (a non-word — or
absent — character before, a non-word — or absent — character after),
the substitution pass on `w ++ post` emits exactly `termRep term` —
the span containing the canonical all-upper-case term, built
independently of `w` — and continues scanning `post` with the matched
slice's last character as boundary context; the original casing `w`
does not survive in the replacement.  Second conjunct: end to end,
`_highlight_medical_values` rewrites each of the nineteen words, in
lower case and capitalized, to the canonical upper-case span inside a
line. -/
theorem C10_theorem :
    (∀ (term : String), term ∈ important_terms →
      ∀ (prev : Option Char) (w post : List Char),
        w.map Char.toUpper = term.toList →
        isWordOpt prev = false →
        isWordOpt post.head? = false →
        termSubAux term.toList (termRep term) prev (w ++ post) =
          termRep term ++ termSubAux term.toList (termRep term) w.getLast? post) ∧
    (important_terms.all (fun t =>
      highlight_medical_values ("Result: " ++ lowerS t) == "Result: " ++ termSpan t &&
      highlight_medical_values ("Result: " ++ capitalizeFirst t) == "Result: " ++ termSpan t)) =
      true := by
  constructor
  · intro term hterm prev w post hw hprev hpost
    obtain ⟨c, cs, rfl⟩ : ∃ c cs, w = c :: cs := by
      cases w with
      | nil => exact absurd hw.symm (important_terms_ne_nil term hterm)
      | cons c cs => exact ⟨c, cs, rfl⟩
    have hlen : cs.length + 1 = term.toList.length := by
      have hx := congrArg List.length hw
      simpa using hx
    have halpha := important_terms_alpha term hterm
    have hmemc : Char.toUpper c ∈ term.toList := by
      rw [← hw]
      exact List.mem_map_of_mem _ (List.mem_cons_self c cs)
    have hcw : isWordChar c = true := isWordChar_of_toUpper_alpha c (halpha _ hmemc)
    have hb1 : isBoundary prev (some c) = true := by
      simp only [isBoundary]
      rw [hprev]
      simp [isWordOpt, hcw]
    cases hgl : (c :: cs).getLast? with
    | none => simp at hgl
    | some d =>
      have hmemd : Char.toUpper d ∈ term.toList := by
        have hx : ((c :: cs).map Char.toUpper).getLast? = some (Char.toUpper d) := by
          rw [List.getLast?_map, hgl]
          rfl
        rw [hw] at hx
        exact List.mem_of_mem_getLast? hx
      have hdw : isWordChar d = true := isWordChar_of_toUpper_alpha d (halpha _ hmemd)
      have hb2 : isBoundary (some d) post.head? = true := by
        simp only [isBoundary]
        rw [hpost]
        simp [isWordOpt, hdw]
      have htake : (c :: (cs ++ post)).take term.toList.length = c :: cs := by
        rw [← hlen, List.take_succ_cons, List.take_left]
      have hdrop : (c :: (cs ++ post)).drop term.toList.length = post := by
        rw [← hlen, List.drop_succ_cons, List.drop_left]
      have hdrop1 : (cs ++ post).drop (term.toList.length - 1) = post := by
        have hx : term.toList.length - 1 = cs.length := by omega
        rw [hx, List.drop_left]
      have hci : ciStarts term.toList (c :: (cs ++ post)) = true := by
        rw [← hw, ← List.cons_append]
        exact ciStarts_map_toUpper (c :: cs) post
      have hguard : (ciStarts term.toList (c :: (cs ++ post)) &&
          isBoundary prev (some c) &&
          isBoundary (((c :: (cs ++ post)).take term.toList.length).getLast?)
            (((c :: (cs ++ post)).drop term.toList.length).head?)) = true := by
        rw [htake, hdrop, hgl, hci, hb1, hb2]
        rfl
      unfold termSubAux
      rw [List.cons_append, List.length_cons]
      simp only [termSubFuel]
      rw [if_pos hguard]
      rw [htake, hgl, hdrop1]
      congr 1
      exact termSubFuel_fuel_irrel _ _ _ (by rw [List.length_append]; omega) (le_refl _)
  · rfl

/-- C10, witness: the mixed-case occurrence `Normal` of the term
`NORMAL`, preceded by a space and followed by ` today`, is replaced by
the canonical span. -/
theorem C10_witness :
    termSubAux "NORMAL".toList (termRep "NORMAL") (some ' ')
        ("Normal".toList ++ " today".toList) =
      termRep "NORMAL" ++
        termSubAux "NORMAL".toList (termRep "NORMAL")
          ("Normal".toList.getLast?) " today".toList :=
  C10_theorem.1 "NORMAL" (by decide) (some ' ') "Normal".toList " today".toList
    (by decide) (by rfl) (by rfl)

end HealthCheck
